import Mathlib

/-!
# Verification of the Paddle operator registry and net driver

A shallow embedding, in Lean 4, of `paddle/framework/op_registry.h` and
`paddle/framework/net.cc`.  C++ `std::string` is modelled by `String`,
`std::vector` by `List`, `std::unordered_map` by an association list with
replace-on-insert semantics, and `PADDLE_ENFORCE` failures (and the
exceptions thrown by `unordered_map::at`) by `Except`.  The global atomic
temporary-name counter is threaded explicitly as a `Nat`.
-/

/-- Bit pattern of a machine `float`.  Attribute values of float type are
only ever stored and copied by this code, never computed with, so the bit
pattern is an adequate model. -/
structure FloatVal where
  bits : Nat
deriving DecidableEq, Repr

/-- The `Attribute` tagged union (`boost::variant` over the six supported
attribute payload types). -/
inductive Attribute where
  | int (i : Int)
  | float (f : FloatVal)
  | string (s : String)
  | ints (l : List Int)
  | floats (l : List FloatVal)
  | strings (l : List String)
deriving DecidableEq, Repr

/-- `AttributeMap`: `std::unordered_map<std::string, Attribute>`, modelled
as an association list whose keys are kept unique by the operations below. -/
abbrev AttributeMap := List (String × Attribute)

/-- Lookup in an `AttributeMap` (`find`). -/
def amLookup : AttributeMap → String → Option Attribute
  | [], _ => none
  | (k', v) :: rest, k => if k' = k then some v else amLookup rest k

/-- `unordered_map::erase(key)`. -/
def amErase (m : AttributeMap) (k : String) : AttributeMap :=
  m.filter (fun p => p.1 ≠ k)

/-- `map[key] = value`: replace the existing entry or append a new one. -/
def amInsert : AttributeMap → String → Attribute → AttributeMap
  | [], k, v => [(k, v)]
  | (k', v') :: rest, k, v =>
    if k' = k then (k, v) :: rest else (k', v') :: amInsert rest k v

/-- `unordered_map::count(key) > 0`. -/
def amContains (m : AttributeMap) (k : String) : Bool :=
  (amLookup m k).isSome

/-- `VarIndexMap = std::unordered_map<std::string, int>` (name → position),
modelled as an association list with replace-on-insert semantics. -/
abbrev VarIndexMap := List (String × Nat)

/-- Lookup in a `VarIndexMap`. -/
def vimLookup : VarIndexMap → String → Option Nat
  | [], _ => none
  | (k', v) :: rest, k => if k' = k then some v else vimLookup rest k

/-- `(*map)[key] = value`: replace the existing entry or append a new one. -/
def vimInsert : VarIndexMap → String → Nat → VarIndexMap
  | [], k, v => [(k, v)]
  | (k', v') :: rest, k, v =>
    if k' = k then (k, v) :: rest else (k', v') :: vimInsert rest k v

/-- One loop of `GenerateGradArgOffset` / `RegisterOp`: insert every name of
`names` with consecutive indices starting at `i`; also returns the final
value of the `idx` counter. -/
def vimInsertAll : VarIndexMap → List String → Nat → VarIndexMap × Nat
  | m, [], i => (m, i)
  | m, n :: rest, i => vimInsertAll (vimInsert m n i) rest (i + 1)

/-- `OperatorBase::TMP_VAR_NAME()`.  Modelled from the spec: the reserved
"auto-temporary" output sentinel is a process-wide constant defined in
`operator.h` (not part of the sources under verification); its exact
spelling is immaterial to every property proved below. -/
def TMP_VAR_NAME : String := "@TEMP"

/-- `OperatorBase::GRAD_VAR_SUFFIX()`.  Modelled from the spec: the reserved
gradient-name suffix, written `@GRAD` in the specification, is a
process-wide constant defined in `operator.h` (not part of the sources
under verification). -/
def GRAD_VAR_SUFFIX : String := "@GRAD"

/-- `OperatorBase` (`operator.h`): the instantiated operator node, with the
fields this code reads and writes.  `in_out_idxs_` is a
`std::shared_ptr<VarIndexMap>`, modelled as an `Option` that is `none`
while the pointer is null. -/
structure OperatorBase where
  type_ : String
  inputs_ : List String
  outputs_ : List String
  attrs_ : AttributeMap
  in_out_idxs_ : Option VarIndexMap
deriving DecidableEq, Repr

/-- A freshly `new`-ed operator node, before `CreateOp`/`CreateGradOp`
assign its fields. -/
def freshOperator : OperatorBase :=
  { type_ := "", inputs_ := [], outputs_ := [], attrs_ := [], in_out_idxs_ := none }

/-- `VarProto` (`op_proto.pb.h`): one declared input/output slot. -/
structure VarProto where
  name : String
  comment : String
  multiple : Bool
  temporary : Bool
deriving DecidableEq, Repr

/-- `AttrType` (`attr_type.proto`): the enumerated attribute type tags. -/
inductive AttrType where
  | INT
  | FLOAT
  | STRING
  | INTS
  | FLOATS
  | STRINGS
deriving DecidableEq, Repr

/-- `AttrProto` (`op_proto.pb.h`): one declared attribute. -/
structure AttrProto where
  name : String
  comment : String
  type : AttrType
  generated : Bool
deriving DecidableEq, Repr

/-- `OpProto` (`op_proto.pb.h`): the schema record of one operator kind. -/
structure OpProto where
  type : String
  inputs : List VarProto
  outputs : List VarProto
  attrs : List AttrProto
  comment : String
deriving DecidableEq, Repr

/-- A default-constructed (empty) `OpProto`, as produced by
`protos()[type]` when the kind was never registered. -/
def emptyOpProto : OpProto :=
  { type := "", inputs := [], outputs := [], attrs := [], comment := "" }

/-- `OpRegistry::AssembleGradInOut`: the gradient node's input list is the
forward inputs, then the forward outputs, then the gradient-suffixed
forward outputs; its output list is the gradient-suffixed forward inputs. -/
def assembleGradInOut (op : OperatorBase) : List String × List String :=
  (op.inputs_ ++ op.outputs_ ++ op.outputs_.map (· ++ GRAD_VAR_SUFFIX),
   op.inputs_.map (· ++ GRAD_VAR_SUFFIX))

/-- `OpRegistry::GenerateGradArgOffset`: builds the gradient node's
`VarIndexMap`.  One continuous `idx` counter runs over the proto's input
names, then its output names, then the gradient-suffixed output names;
the counter is then reset to 0 for the gradient-suffixed input names. -/
def generateGradArgOffset (proto : OpProto) : VarIndexMap :=
  let inNames := proto.inputs.map (fun v => v.name)
  let outNames := proto.outputs.map (fun v => v.name)
  let s1 := vimInsertAll [] inNames 0
  let s2 := vimInsertAll s1.1 outNames s1.2
  let s3 := vimInsertAll s2.1 (outNames.map (· ++ GRAD_VAR_SUFFIX)) s2.2
  (vimInsertAll s3.1 (inNames.map (· ++ GRAD_VAR_SUFFIX)) 0).1

/-- The list `[0, 1, ..., n-1]` as machine ints: the result of
`std::iota(v.begin(), v.end(), 0)` on a vector of length `n`. -/
def intRange (n : Nat) : List Int :=
  (List.range n).map Int.ofNat

/-- `op->GetAttr<std::vector<int>>(key)` (`operator.h`): fetches the stored
attribute and extracts the list-of-int payload with `boost::get`.  Every
call site below is guarded by `count(key)`, and the properties proved here
only ever store list-of-int values under the format keys, so the fallback
branch is unreachable in them. -/
def getAttrInts (op : OperatorBase) (key : String) : List Int :=
  match amLookup op.attrs_ key with
  | some (Attribute.ints l) => l
  | _ => []

/-- `OpRegistry::GenerateGradAttr`: the gradient node's attribute map.
The forward attributes are copied, the `input_format`/`output_format`
entries are dropped, and, when the forward node had either format, a new
`input_format` (and, when it had an `input_format`, an `output_format`)
is computed.

Note on the `old_in_format`/`old_out_format` initialisers: in the source,

    has_in_format
        ? old_in_format = op->GetAttr<std::vector<int>>("input_format")
        : old_in_format = std::vector<int>(op_proto.inputs_size()),
          std::iota(old_in_format.begin(), old_in_format.end(), 0);

the third operand of `?:` is the assignment-expression
`old_in_format = std::vector<int>(...)` only, and the `std::iota` call is
joined by the comma operator to the *whole* conditional, so it executes on
both branches and overwrites the vector (of length `|attr|` in the first
branch, `inputs_size()` in the second) with `0, 1, 2, ...`. -/
def generateGradAttr (proto : OpProto) (op : OperatorBase) : AttributeMap :=
  let attrs0 := amErase (amErase op.attrs_ "input_format") "output_format"
  let has_in_format := amContains op.attrs_ "input_format"
  let has_out_format := amContains op.attrs_ "output_format"
  if has_in_format || has_out_format then
    let old_in_format :=
      intRange (if has_in_format then (getAttrInts op "input_format").length
                else proto.inputs.length)
    let old_out_format :=
      intRange (if has_out_format then (getAttrInts op "output_format").length
                else proto.outputs.length)
    -- base starts at 0, gains op->inputs_.size() after the first loop and
    -- op->outputs_.size() after the second
    let base1 : Int := Int.ofNat op.inputs_.length
    let base2 : Int := base1 + Int.ofNat op.outputs_.length
    let in_format :=
      old_in_format ++ old_out_format.map (· + base1) ++ old_in_format.map (· + base2)
    let attrs1 := amInsert attrs0 "input_format" (Attribute.ints in_format)
    if has_in_format then
      amInsert attrs1 "output_format" (Attribute.ints old_in_format)
    else attrs1
  else attrs0

/-- Fuel-indexed recursion computing decimal digits, most significant
first; with fuel above `n` the fuel never runs out. -/
def decDigitsCore : Nat → Nat → List Char
  | 0, _ => []
  | fuel + 1, n =>
    if n < 10 then [Char.ofNat (48 + n)]
    else decDigitsCore fuel (n / 10) ++ [Char.ofNat (48 + n % 10)]

/-- The decimal digits of `n`, most significant first: the characters
produced by `std::to_string` on an unsigned value. -/
def decDigits (n : Nat) : List Char :=
  decDigitsCore (n + 1) n

/-- `std::to_string` on a `size_t` counter value. -/
def toStringNat (n : Nat) : String :=
  String.mk (decDigits n)

/-- The name built by `GenerateTempVariableName` for one sentinel output:
`outname` (the sentinel) `+= op->type_; += "@"; += std::to_string(id)`. -/
def mkTempName (ty : String) (n : Nat) : String :=
  TMP_VAR_NAME ++ ty ++ "@" ++ toStringNat n

/-- `OpRegistry::GenerateTempVariableName`: walk the output list; each name
equal to the sentinel is rewritten using the next value of the global
atomic counter `gUniqId` (`fetch_add(1)` returns the pre-increment value).
The counter is threaded explicitly; the function returns the rewritten
list and the counter's new value. -/
def generateTempVariableName (ty : String) : List String → Nat → List String × Nat
  | [], c => ([], c)
  | o :: os, c =>
    if o = TMP_VAR_NAME then
      let r := generateTempVariableName ty os (c + 1)
      (mkTempName ty c :: r.1, r.2)
    else
      let r := generateTempVariableName ty os c
      (o :: r.1, r.2)

/-- `AttrDesc` (`op_desc.pb.h`): one serialized attribute record.  The wire
type tag is an arbitrary integer; tags 0–5 are the enumerated
`INT, FLOAT, STRING, INTS, FLOATS, STRINGS` (modelled from the spec's
enumerated tag set; the `.proto` file is not among the sources). -/
structure AttrDesc where
  name : String
  type : Nat
  i : Int
  f : FloatVal
  s : String
  ints : List Int
  floats : List FloatVal
  strings : List String
deriving DecidableEq, Repr

/-- The error taxonomy: `PADDLE_ENFORCE` failures and the
`std::out_of_range` thrown by `unordered_map::at`. -/
inductive OpError where
  | notFound (what : String)
  | validation (what : String)
  | decodeFailure (what : String)
  | outOfRange (what : String)
deriving DecidableEq, Repr

/-- `AttrTypeHelper::GetAttrValue`: decode one serialized attribute.  The
switch covers the six enumerated tags; any other tag falls through to
`PADDLE_ENFORCE(false, "Unknown OpDesc::AttrDesc::type !")`. -/
def getAttrValue (d : AttrDesc) : Except OpError Attribute :=
  match d.type with
  | 0 => Except.ok (Attribute.int d.i)
  | 1 => Except.ok (Attribute.float d.f)
  | 2 => Except.ok (Attribute.string d.s)
  | 3 => Except.ok (Attribute.ints d.ints)
  | 4 => Except.ok (Attribute.floats d.floats)
  | 5 => Except.ok (Attribute.strings d.strings)
  | _ => Except.error (OpError.decodeFailure "Unknown OpDesc::AttrDesc::type !")

/-- One declared attribute checker (`TypedAttrChecker`, `attr_checker.h`).
Modelled from the spec: `AddAttrChecker<T>(name)` registers a checker for
`name` with the declared type and no default; a chained `SetDefault(v)`
records `v` as the default.  `Check` fails on a bound map in which a
defaultless declared attribute is missing or a present value has the
wrong type tag (value-predicate constraints are not exercised by any
declaration in the sources). -/
structure AttrCheckerDecl where
  name : String
  type : AttrType
  defaultValue : Option Attribute
deriving DecidableEq, Repr

/-- The per-kind attribute checker: the declared checkers, in declaration
order (`OpAttrChecker`, `attr_checker.h`). -/
abbrev OpAttrChecker := List AttrCheckerDecl

/-- The type tag of a bound attribute value. -/
def attrTypeOf : Attribute → AttrType
  | Attribute.int _ => AttrType.INT
  | Attribute.float _ => AttrType.FLOAT
  | Attribute.string _ => AttrType.STRING
  | Attribute.ints _ => AttrType.INTS
  | Attribute.floats _ => AttrType.FLOATS
  | Attribute.strings _ => AttrType.STRINGS

/-- `OpAttrChecker::Check(attrs)`, modelled from the spec (see
`AttrCheckerDecl`): `true` iff every declared checker is satisfied. -/
def checkAttrMap (c : OpAttrChecker) (m : AttributeMap) : Bool :=
  c.all (fun d =>
    match amLookup m d.name with
    | some v => attrTypeOf v = d.type
    | none => d.defaultValue.isSome)

/-- The registry's five static tables (`OpRegistry`).  A creator
(`[] { return new OpType; }`) is modelled by the fresh node it returns;
`OperatorBase::Init` is modelled from the spec as the kind-specific
post-construction initializer, a no-op on the node's wiring (in
`operator.h` its default body is empty). -/
structure OpRegistry where
  creators : List (String × OperatorBase)
  op_checkers : List (String × OpAttrChecker)
  protos : List (String × OpProto)
  var_index_maps : List (String × VarIndexMap)
  grad_creators : List (String × OperatorBase)
deriving DecidableEq, Repr

/-- Lookup in one registry table (`unordered_map::find`). -/
def regLookup {α : Type} : List (String × α) → String → Option α
  | [], _ => none
  | (k', v) :: rest, k => if k' = k then some v else regLookup rest k

/-- `OpRegistry::CreateOp(type, inputs, outputs, attrs)`, with the global
temp-name counter threaded as `gUniqId`.  Fails (synchronously, returning
no node) when the kind has no registered creator or the attribute map
fails the kind's checker; a missing `VarIndexMaps()` entry is tolerated
and leaves `in_out_idxs_` unset. -/
def createOp (reg : OpRegistry) (gUniqId : Nat) (type : String)
    (inputs outputs : List String) (attrs : AttributeMap) :
    Except OpError (OperatorBase × Nat) :=
  match regLookup reg.creators type with
  | none => Except.error (OpError.notFound ("Operator " ++ type ++ " cannot be found."))
  | some fresh =>
    let op := { fresh with type_ := type, inputs_ := inputs, outputs_ := outputs,
                           attrs_ := attrs }
    -- op_checkers().at(type): `at` throws std::out_of_range when absent
    match regLookup reg.op_checkers type with
    | none => Except.error (OpError.outOfRange "op_checkers().at")
    | some chk =>
      if checkAttrMap chk op.attrs_ then
        let r := generateTempVariableName op.type_ op.outputs_ gUniqId
        let op := { op with outputs_ := r.1 }
        let op :=
          match regLookup reg.var_index_maps type with
          | some idxs => { op with in_out_idxs_ := some idxs }
          | none => op
        Except.ok (op, r.2)
      else Except.error (OpError.validation ("Attribute check failed for " ++ type))

/-- `OpRegistry::CreateGradOp(op)`: look up the gradient creator
(`grad_creators().at`, which throws when absent), stamp the forward kind
name on the fresh node, then wire inputs/outputs, the gradient index map
and the gradient attribute map.  `protos()[op->type_]` default-constructs
an empty proto when the kind is unknown. -/
def createGradOp (reg : OpRegistry) (op : OperatorBase) :
    Except OpError OperatorBase :=
  match regLookup reg.grad_creators op.type_ with
  | none => Except.error (OpError.outOfRange "grad_creators().at")
  | some fresh =>
    let grad_op := { fresh with type_ := op.type_ }
    let io := assembleGradInOut op
    let grad_op := { grad_op with inputs_ := io.1, outputs_ := io.2 }
    let proto := (regLookup reg.protos op.type_).getD emptyOpProto
    let grad_op := { grad_op with in_out_idxs_ := some (generateGradArgOffset proto) }
    let grad_op := { grad_op with attrs_ := generateGradAttr proto op }
    Except.ok grad_op

/-- The builder state of `OpProtoAndCheckerMaker`: the proto and checker
being populated, the `validated_` flag and the three lazy-injection
flags. -/
structure OpProtoAndCheckerMaker where
  proto : OpProto
  op_checker : OpAttrChecker
  validated : Bool
  has_multiple_input : Bool
  has_multiple_output : Bool
  has_temporary_output : Bool
deriving DecidableEq, Repr

/-- A maker freshly constructed on an empty proto and checker. -/
def emptyMaker : OpProtoAndCheckerMaker :=
  { proto := emptyOpProto, op_checker := [], validated := false,
    has_multiple_input := false, has_multiple_output := false,
    has_temporary_output := false }

/-- `AddAttr<T>(name, comment, generated)` followed by an optional chained
`SetDefault(v)` on the returned checker: appends an `AttrProto` and an
attribute checker declaration.  (`AddAttr` itself never sets a default;
`dflt` records what, if anything, the caller chains.) -/
def makerAddAttr (m : OpProtoAndCheckerMaker) (name comment : String)
    (ty : AttrType) (generated : Bool) (dflt : Option Attribute) :
    OpProtoAndCheckerMaker :=
  { m with
    proto := { m.proto with
               attrs := m.proto.attrs ++
                 [{ name := name, comment := comment, type := ty,
                    generated := generated }] },
    op_checker := m.op_checker ++
      [{ name := name, type := ty, defaultValue := dflt }] }

/-- `SetHasMultiple(in_out, flag)`: on the first call, inject the
`<in_out>_format` list-of-int attribute with `generated = true` and *no*
`SetDefault` chained.  (The long `R"DOC(...)"` comment text is abridged;
no property below depends on comment contents.) -/
def setHasMultiple (m : OpProtoAndCheckerMaker) (in_out : String) (flag : Bool) :
    OpProtoAndCheckerMaker × Bool :=
  if !flag then
    (makerAddAttr m (in_out ++ "_format")
      ("The multiple index of " ++ in_out) AttrType.INTS true none, true)
  else (m, flag)

/-- `SetHasMultipleInput()`. -/
def setHasMultipleInput (m : OpProtoAndCheckerMaker) : OpProtoAndCheckerMaker :=
  let r := setHasMultiple m "input" m.has_multiple_input
  { r.1 with has_multiple_input := r.2 }

/-- `SetHasMultipleOutput()`. -/
def setHasMultipleOutput (m : OpProtoAndCheckerMaker) : OpProtoAndCheckerMaker :=
  let r := setHasMultiple m "output" m.has_multiple_output
  { r.1 with has_multiple_output := r.2 }

/-- `SetHasTemporaryOutput()`: on the first call, inject the
`temporary_index` list-of-int attribute with `generated = true` and a
chained `SetDefault(std::vector<int>())`. -/
def setHasTemporaryOutput (m : OpProtoAndCheckerMaker) : OpProtoAndCheckerMaker :=
  if !m.has_temporary_output then
    { makerAddAttr m "temporary_index"
        "The temporary index of output." AttrType.INTS true
        (some (Attribute.ints [])) with
      has_temporary_output := true }
  else m

/-- `AddInput(name, comment, multiple)`. -/
def makerAddInput (m : OpProtoAndCheckerMaker) (name comment : String)
    (multiple : Bool) : OpProtoAndCheckerMaker :=
  let m := { m with
             proto := { m.proto with
                        inputs := m.proto.inputs ++
                          [{ name := name, comment := comment,
                             multiple := multiple, temporary := false }] } }
  if multiple then setHasMultipleInput m else m

/-- `AddOutput(name, comment, temporary, multiple)`. -/
def makerAddOutput (m : OpProtoAndCheckerMaker) (name comment : String)
    (temporary multiple : Bool) : OpProtoAndCheckerMaker :=
  let m := { m with
             proto := { m.proto with
                        outputs := m.proto.outputs ++
                          [{ name := name, comment := comment,
                             multiple := multiple, temporary := temporary }] } }
  let m := if multiple then setHasMultipleOutput m else m
  if temporary then setHasTemporaryOutput m else m

/-- One declaration made through the builder's protected interface.
`addInputs name c` abbreviates `addInput name c true` and
`addOutputs name c t` abbreviates `addOutput name c t true`, exactly as in
the source. -/
inductive MakerCmd where
  | addInput (name comment : String) (multiple : Bool)
  | addInputs (name comment : String)
  | addOutput (name comment : String) (temporary multiple : Bool)
  | addOutputs (name comment : String) (temporary : Bool)
  | addAttr (name comment : String) (ty : AttrType) (generated : Bool)
            (dflt : Option Attribute)
  | addComment (comment : String)
deriving DecidableEq, Repr

/-- Run one builder declaration. -/
def runMakerCmd (m : OpProtoAndCheckerMaker) : MakerCmd → OpProtoAndCheckerMaker
  | MakerCmd.addInput name comment multiple => makerAddInput m name comment multiple
  | MakerCmd.addInputs name comment => makerAddInput m name comment true
  | MakerCmd.addOutput name comment temporary multiple =>
      makerAddOutput m name comment temporary multiple
  | MakerCmd.addOutputs name comment temporary =>
      makerAddOutput m name comment temporary true
  | MakerCmd.addAttr name comment ty generated dflt =>
      makerAddAttr m name comment ty generated dflt
  | MakerCmd.addComment comment =>
      { m with proto := { m.proto with comment := comment } }

/-- Run a sequence of builder declarations. -/
def runMaker (m : OpProtoAndCheckerMaker) : List MakerCmd → OpProtoAndCheckerMaker
  | [] => m
  | c :: cs => runMaker (runMakerCmd m c) cs

/-- All declared names of a schema, in the order
`CheckNoDuplicatedInOutAttrs` visits them: attributes, then inputs, then
outputs. -/
def makerAllNames (m : OpProtoAndCheckerMaker) : List String :=
  m.proto.attrs.map (fun a => a.name) ++
  m.proto.inputs.map (fun v => v.name) ++
  m.proto.outputs.map (fun v => v.name)

/-- The loop body of `CheckNoDuplicatedInOutAttrs`: `true` (no failure) iff
no name is already in the `names` set when it is checked. -/
def checkDupAux : List String → List String → Bool
  | [], _ => true
  | n :: rest, seen => if n ∈ seen then false else checkDupAux rest (n :: seen)

/-- `CheckNoDuplicatedInOutAttrs()`: `true` iff no duplicated name. -/
def checkNoDuplicatedInOutAttrs (m : OpProtoAndCheckerMaker) : Bool :=
  checkDupAux (makerAllNames m) []

/-- `Validate()`: set `validated_`, then run the duplicate check;
`PADDLE_ENFORCE` failure is modelled as an `Except.error`. -/
def makerValidate (m : OpProtoAndCheckerMaker) :
    Except OpError OpProtoAndCheckerMaker :=
  let m' := { m with validated := true }
  if checkNoDuplicatedInOutAttrs m' then Except.ok m'
  else Except.error (OpError.validation "duplicated name in proto")

/-- An operator node held by a `PlainNet`, identified abstractly; its
`InferShape`/`Run` bodies are external (`operator.h`), so an invocation is
modelled by the event it appends to a trace. -/
structure NetOp where
  uid : Nat
deriving DecidableEq, Repr

/-- One observable driver action: `op.InferShape()` or `op.Run(ctx)`
(device contexts are identified abstractly by a number). -/
inductive NetEvent where
  | inferShapeCall (uid : Nat)
  | runCall (uid : Nat) (ctx : Nat)
deriving DecidableEq, Repr

/-- `PlainNet`: the ordered sequence of operator nodes. -/
structure PlainNet where
  ops_ : List NetOp
deriving DecidableEq, Repr

/-- `PlainNet::InferShape(scope)`: `for (auto& op : ops_) op.InferShape();`
— the scope argument is received but the loop passes nothing to the nodes.
Returns the object state after the pass and the trace of invocations. -/
def plainNetInferShape (net : PlainNet) (scope : Nat) : PlainNet × List NetEvent :=
  (net, net.ops_.foldl (fun tr op => tr ++ [NetEvent.inferShapeCall op.uid]) [])

/-- `PlainNet::Run(scope, ctx)`: `for (auto& op : ops_) op.Run(ctx);` —
returns the object state after the pass and the trace of invocations. -/
def plainNetRun (net : PlainNet) (scope : Nat) (ctx : Nat) :
    PlainNet × List NetEvent :=
  (net, net.ops_.foldl (fun tr op => tr ++ [NetEvent.runCall op.uid ctx]) [])

/-- The declared input slot names of a schema, in order. -/
def protoInNames (proto : OpProto) : List String :=
  proto.inputs.map (fun v => v.name)

/-- The declared output slot names of a schema, in order. -/
def protoOutNames (proto : OpProto) : List String :=
  proto.outputs.map (fun v => v.name)

/-- Decidable equality of `Except` results, used to evaluate the embedded
operations at concrete inputs. -/
instance instDecEqExcept {e a : Type} [DecidableEq e] [DecidableEq a] :
    DecidableEq (Except e a) := fun x y =>
  match x, y with
  | Except.ok u, Except.ok v =>
    if h : u = v then Decidable.isTrue (congrArg Except.ok h)
    else Decidable.isFalse (fun hh => h (Except.ok.inj hh))
  | Except.error u, Except.error v =>
    if h : u = v then Decidable.isTrue (congrArg Except.error h)
    else Decidable.isFalse (fun hh => h (Except.error.inj hh))
  | Except.ok _, Except.error _ => Decidable.isFalse (fun hh => Except.noConfusion hh)
  | Except.error _, Except.ok _ => Decidable.isFalse (fun hh => Except.noConfusion hh)

/-- The fixture schema of §8's round-trip example: forward inputs `a, b`,
forward output `c`, no grouping. -/
def exProtoABC : OpProto :=
  { type := "mul",
    inputs := [{ name := "a", comment := "", multiple := false, temporary := false },
               { name := "b", comment := "", multiple := false, temporary := false }],
    outputs := [{ name := "c", comment := "", multiple := false, temporary := false }],
    attrs := [], comment := "" }

/-- A registry holding the fixture kind `mul` with a registered gradient
creator. -/
def exGradReg : OpRegistry :=
  { creators := [("mul", freshOperator)],
    op_checkers := [("mul", [])],
    protos := [("mul", exProtoABC)],
    var_index_maps := [],
    grad_creators := [("mul", freshOperator)] }

/-- The fixture forward node: kind `mul` bound to inputs `[a, b]` and
output `[c]`. -/
def exFwdOp : OperatorBase :=
  { type_ := "mul", inputs_ := ["a", "b"], outputs_ := ["c"], attrs_ := [],
    in_out_idxs_ := none }

/-- The gradient node the registry derives for the fixture forward node. -/
def exGop : OperatorBase :=
  ((createGradOp exGradReg exFwdOp).toOption).getD freshOperator

/-- The fixture schema of §8's grouped-input example: two grouped input
slots (bound to variable runs of sizes 2 and 3) and one ungrouped output
slot. -/
def exProtoGrouped : OpProto :=
  { type := "gop",
    inputs := [{ name := "g1", comment := "", multiple := true, temporary := false },
               { name := "g2", comment := "", multiple := true, temporary := false }],
    outputs := [{ name := "out", comment := "", multiple := false, temporary := false }],
    attrs := [{ name := "input_format", comment := "", type := AttrType.INTS,
                generated := true }],
    comment := "" }

/-- A registry holding the grouped fixture kind with a gradient creator. -/
def exRegGrouped : OpRegistry :=
  { creators := [("gop", freshOperator)],
    op_checkers := [("gop", [])],
    protos := [("gop", exProtoGrouped)],
    var_index_maps := [],
    grad_creators := [("gop", freshOperator)] }

/-- The grouped fixture forward node: five bound inputs in groups of sizes
`[2, 3]` (format `[0, 2, 5]`), one bound output. -/
def exOpGrouped : OperatorBase :=
  { type_ := "gop", inputs_ := ["a", "b", "c", "d", "e"], outputs_ := ["o1"],
    attrs_ := [("input_format", Attribute.ints [0, 2, 5])],
    in_out_idxs_ := none }

/-- The gradient node derived for the grouped fixture forward node. -/
def exGopGrouped : OperatorBase :=
  ((createGradOp exRegGrouped exOpGrouped).toOption).getD freshOperator

/-- A forward node of the grouped fixture kind carrying both an
`input_format` (`[0, 2, 5]`) and an `output_format` (`[0, 1, 2]`), with
two bound outputs. -/
def exOpBoth : OperatorBase :=
  { type_ := "gop", inputs_ := ["a", "b", "c", "d", "e"],
    outputs_ := ["o1", "o2"],
    attrs_ := [("input_format", Attribute.ints [0, 2, 5]),
               ("output_format", Attribute.ints [0, 1, 2])],
    in_out_idxs_ := none }

/-- The gradient node derived for the both-formats fixture forward node. -/
def exGopBoth : OperatorBase :=
  ((createGradOp exRegGrouped exOpBoth).toOption).getD freshOperator

/-- Reading a digit string back as a number: the left inverse of
`decDigits` used to prove generated temporary names distinct. -/
def fromDecAux (a : Nat) (l : List Char) : Nat :=
  l.foldl (fun acc c => 10 * acc + (c.toNat - 48)) a

/-- The number of sentinel names in an output list. -/
def countTmp (os : List String) : Nat :=
  (os.filter (fun o => o = TMP_VAR_NAME)).length

/-- A registry holding a plain kind `k` with an empty checker, used to
evaluate `createOp` at concrete inputs. -/
def exTmpReg : OpRegistry :=
  { creators := [("k", freshOperator)],
    op_checkers := [("k", [])],
    protos := [],
    var_index_maps := [],
    grad_creators := [] }

/-- The node `createOp` builds for kind `k` with one sentinel-named output,
starting from counter value 5. -/
def exTmpNode : OperatorBase :=
  (((createOp exTmpReg 5 "k" [] [TMP_VAR_NAME] []).toOption).getD
    (freshOperator, 0)).1

/-- The number of schema attributes carrying a given name. -/
def countAttrIn (attrs : List AttrProto) (nm : String) : Nat :=
  (attrs.filter (fun a => a.name = nm)).length

/-- Does a builder declaration add a user attribute with the given name? -/
def cmdAddsAttrNamed (nm : String) : MakerCmd → Bool
  | MakerCmd.addAttr n _ _ _ _ => n = nm
  | _ => false

/-- Does a builder declaration declare a multiple input slot? -/
def declaresMultipleInput : MakerCmd → Bool
  | MakerCmd.addInput _ _ m => m
  | MakerCmd.addInputs _ _ => true
  | _ => false

/-- Does a builder declaration declare a multiple output slot? -/
def declaresMultipleOutput : MakerCmd → Bool
  | MakerCmd.addOutput _ _ _ m => m
  | MakerCmd.addOutputs _ _ _ => true
  | _ => false

/-- Does a builder declaration declare a temporary output slot? -/
def declaresTemporaryOutput : MakerCmd → Bool
  | MakerCmd.addOutput _ _ t _ => t
  | MakerCmd.addOutputs _ _ t => t
  | _ => false

/-- The bookkeeping invariant tying the three lazy-injection flags to the
schema's attribute list and checker declarations: each bookkeeping
attribute occurs exactly once when its flag is set (never more), carries
`generated = true` and list-of-int type, the format attributes have no
default, and `temporary_index` defaults to the empty list. -/
def makerFormatInv (m : OpProtoAndCheckerMaker) : Prop :=
  countAttrIn m.proto.attrs "input_format" =
    (if m.has_multiple_input then 1 else 0) ∧
  countAttrIn m.proto.attrs "output_format" =
    (if m.has_multiple_output then 1 else 0) ∧
  countAttrIn m.proto.attrs "temporary_index" =
    (if m.has_temporary_output then 1 else 0) ∧
  (∀ a ∈ m.proto.attrs,
     a.name = "input_format" ∨ a.name = "output_format" ∨
       a.name = "temporary_index" →
     a.generated = true ∧ a.type = AttrType.INTS) ∧
  (∀ d ∈ m.op_checker,
     d.name = "input_format" ∨ d.name = "output_format" →
     d.defaultValue = none) ∧
  (∀ d ∈ m.op_checker, d.name = "temporary_index" →
     d.defaultValue = some (Attribute.ints []))

/-- The fixture declaration sequence: one multiple input, one temporary
multiple output. -/
def exCmds : List MakerCmd :=
  [MakerCmd.addInputs "X" "doc", MakerCmd.addOutputs "Y" "doc" true]

/-- A builder state holding an attribute and an input that share the name
`X`. -/
def exDupMaker : OpProtoAndCheckerMaker :=
  runMaker emptyMaker
    [MakerCmd.addAttr "X" "doc" AttrType.INT false none,
     MakerCmd.addInput "X" "doc" false]

/-- A registry with no registrations at all. -/
def emptyReg : OpRegistry :=
  { creators := [], op_checkers := [], protos := [], var_index_maps := [],
    grad_creators := [] }

/-- A registry whose kind `ck` declares a required no-default attribute
`size`, so that the empty attribute map fails its checker. -/
def exChkReg : OpRegistry :=
  { creators := [("ck", freshOperator)],
    op_checkers := [("ck", [{ name := "size", type := AttrType.INT,
                              defaultValue := none }])],
    protos := [], var_index_maps := [], grad_creators := [] }

/-- A serialized attribute whose type tag (7) is outside the enumerated
set. -/
def exBadDesc : AttrDesc :=
  { name := "a", type := 7, i := 0, f := { bits := 0 }, s := "", ints := [],
    floats := [], strings := [] }

theorem vimLookup_vimInsert_self (m : VarIndexMap) (k : String) (v : Nat) :
    vimLookup (vimInsert m k v) k = some v := by
  induction m with
  | nil => simp [vimInsert, vimLookup]
  | cons hd tl ih =>
    by_cases h : hd.1 = k
    · simp [vimInsert, h, vimLookup]
    · simp [vimInsert, h, vimLookup, ih]

theorem vimLookup_vimInsert_ne (m : VarIndexMap) (k k' : String) (v : Nat)
    (h : k ≠ k') : vimLookup (vimInsert m k' v) k = vimLookup m k := by
  have h' : ¬(k' = k) := fun hh => h hh.symm
  induction m with
  | nil => simp [vimInsert, vimLookup, h']
  | cons hd tl ih =>
    by_cases hh : hd.1 = k'
    · have hdk : ¬(hd.1 = k) := by rw [hh]; exact h'
      simp [vimInsert, hh, vimLookup, h', hdk]
    · by_cases hk : hd.1 = k
      · simp [vimInsert, hh, vimLookup, hk, h]
      · simp [vimInsert, hh, vimLookup, hk, ih]

theorem vimInsertAll_snd (ns : List String) (m : VarIndexMap) (i : Nat) :
    (vimInsertAll m ns i).2 = i + ns.length := by
  induction ns generalizing m i with
  | nil => simp [vimInsertAll]
  | cons n rest ih => simp [vimInsertAll, ih]; omega

theorem vimLookup_vimInsertAll_notMem (ns : List String) (m : VarIndexMap)
    (i : Nat) (k : String) :
    k ∉ ns → vimLookup (vimInsertAll m ns i).1 k = vimLookup m k := by
  induction ns generalizing m i with
  | nil => intro _; simp [vimInsertAll]
  | cons n rest ih =>
    intro h
    simp only [List.mem_cons, not_or] at h
    show vimLookup (vimInsertAll (vimInsert m n i) rest (i + 1)).1 k = vimLookup m k
    rw [ih (vimInsert m n i) (i + 1) h.2, vimLookup_vimInsert_ne m k n i h.1]

theorem vimLookup_vimInsertAll_getD (ns : List String) (m : VarIndexMap)
    (i j : Nat) :
    ns.Nodup → j < ns.length →
      vimLookup (vimInsertAll m ns i).1 (ns.getD j "") = some (i + j) := by
  induction ns generalizing m i j with
  | nil => intro _ hj; simp at hj
  | cons n rest ih =>
    intro hnd hj
    rcases List.nodup_cons.mp hnd with ⟨hn, hrest⟩
    cases j with
    | zero =>
      show vimLookup (vimInsertAll (vimInsert m n i) rest (i + 1)).1
          ((n :: rest).getD 0 "") = some (i + 0)
      rw [List.getD_cons_zero,
        vimLookup_vimInsertAll_notMem rest (vimInsert m n i) (i + 1) n hn,
        vimLookup_vimInsert_self]
      simp
    | succ jj =>
      show vimLookup (vimInsertAll (vimInsert m n i) rest (i + 1)).1
          ((n :: rest).getD (jj + 1) "") = some (i + (jj + 1))
      rw [List.getD_cons_succ, ih (vimInsert m n i) (i + 1) jj hrest (by simpa using hj)]
      congr 1
      omega

theorem getD_mem_of_lt (l : List String) (i : Nat) (h : i < l.length) :
    l.getD i "" ∈ l := by
  rw [List.getD_eq_getElem l "" h]
  exact List.getElem_mem h

theorem getD_map_gradSuffix (l : List String) (i : Nat) (h : i < l.length) :
    (l.map (· ++ GRAD_VAR_SUFFIX)).getD i "" = l.getD i "" ++ GRAD_VAR_SUFFIX := by
  rw [List.getD_eq_getElem _ "" (by simpa using h), List.getD_eq_getElem l "" h]
  simp

/-- C2.  The gradient node's name index assigns the forward-input slot
names the offsets `0..p-1`, the forward-output slot names `p..p+q-1`, the
gradient-suffixed output names `p+q..p+2q-1`, and the gradient-suffixed
input names their own zero-based offsets `0..p-1`. -/
theorem generateGradArgOffset_offsets (proto : OpProto)
    (hnd : (protoInNames proto ++ protoOutNames proto ++
            (protoOutNames proto).map (· ++ GRAD_VAR_SUFFIX) ++
            (protoInNames proto).map (· ++ GRAD_VAR_SUFFIX)).Nodup) :
    (∀ i, i < proto.inputs.length →
      vimLookup (generateGradArgOffset proto) ((protoInNames proto).getD i "") =
        some i) ∧
    (∀ j, j < proto.outputs.length →
      vimLookup (generateGradArgOffset proto) ((protoOutNames proto).getD j "") =
        some (proto.inputs.length + j)) ∧
    (∀ j, j < proto.outputs.length →
      vimLookup (generateGradArgOffset proto)
          ((protoOutNames proto).getD j "" ++ GRAD_VAR_SUFFIX) =
        some (proto.inputs.length + proto.outputs.length + j)) ∧
    (∀ i, i < proto.inputs.length →
      vimLookup (generateGradArgOffset proto)
          ((protoInNames proto).getD i "" ++ GRAD_VAR_SUFFIX) = some i) := by
  obtain ⟨hABC, hD, hABCd⟩ := List.nodup_append.mp hnd
  obtain ⟨hAB, hC, hABd⟩ := List.nodup_append.mp hABC
  obtain ⟨hA, hB, hAd⟩ := List.nodup_append.mp hAB
  have lA : (protoInNames proto).length = proto.inputs.length := by
    simp [protoInNames]
  have lB : (protoOutNames proto).length = proto.outputs.length := by
    simp [protoOutNames]
  have e : generateGradArgOffset proto =
      (vimInsertAll
        (vimInsertAll
          (vimInsertAll (vimInsertAll [] (protoInNames proto) 0).1
            (protoOutNames proto) (protoInNames proto).length).1
          ((protoOutNames proto).map (· ++ GRAD_VAR_SUFFIX))
          ((protoInNames proto).length + (protoOutNames proto).length)).1
        ((protoInNames proto).map (· ++ GRAD_VAR_SUFFIX)) 0).1 := by
    simp only [generateGradArgOffset, vimInsertAll_snd, Nat.zero_add]
    rfl
  refine ⟨?_, ?_, ?_, ?_⟩
  · intro i hi
    have hi' : i < (protoInNames proto).length := by omega
    have hmem : (protoInNames proto).getD i "" ∈ protoInNames proto :=
      getD_mem_of_lt _ _ hi'
    have hnB := hAd hmem
    have hnC := hABd (List.mem_append_left _ hmem)
    have hnD := hABCd (List.mem_append_left _ (List.mem_append_left _ hmem))
    rw [e, vimLookup_vimInsertAll_notMem _ _ _ _ hnD,
      vimLookup_vimInsertAll_notMem _ _ _ _ hnC,
      vimLookup_vimInsertAll_notMem _ _ _ _ hnB,
      vimLookup_vimInsertAll_getD _ _ 0 i hA hi']
    simp
  · intro j hj
    have hj' : j < (protoOutNames proto).length := by omega
    have hmem : (protoOutNames proto).getD j "" ∈ protoOutNames proto :=
      getD_mem_of_lt _ _ hj'
    have hnC := hABd (List.mem_append_right _ hmem)
    have hnD := hABCd (List.mem_append_left _ (List.mem_append_right _ hmem))
    rw [e, vimLookup_vimInsertAll_notMem _ _ _ _ hnD,
      vimLookup_vimInsertAll_notMem _ _ _ _ hnC,
      vimLookup_vimInsertAll_getD _ _ _ j hB hj', lA]
  · intro j hj
    have hj' : j < (protoOutNames proto).length := by omega
    have hj'' : j < ((protoOutNames proto).map (· ++ GRAD_VAR_SUFFIX)).length := by
      simpa using hj'
    have hmem : ((protoOutNames proto).map (· ++ GRAD_VAR_SUFFIX)).getD j "" ∈
        (protoOutNames proto).map (· ++ GRAD_VAR_SUFFIX) :=
      getD_mem_of_lt _ _ hj''
    have hnD := hABCd (List.mem_append_right _ hmem)
    rw [e, ← getD_map_gradSuffix _ _ hj',
      vimLookup_vimInsertAll_notMem _ _ _ _ hnD,
      vimLookup_vimInsertAll_getD _ _ _ j hC hj'', lA, lB]
  · intro i hi
    have hi' : i < (protoInNames proto).length := by omega
    have hi'' : i < ((protoInNames proto).map (· ++ GRAD_VAR_SUFFIX)).length := by
      simpa using hi'
    rw [e, ← getD_map_gradSuffix _ _ hi',
      vimLookup_vimInsertAll_getD _ _ 0 i hD hi'']
    simp

theorem generateGradArgOffset_offsets_witness :
    vimLookup (generateGradArgOffset exProtoABC) "c@GRAD" = some 3 ∧
    vimLookup (generateGradArgOffset exProtoABC) "a@GRAD" = some 0 := by
  have h := generateGradArgOffset_offsets exProtoABC (by decide)
  constructor
  · rw [show ("c@GRAD" : String) =
        (protoOutNames exProtoABC).getD 0 "" ++ GRAD_VAR_SUFFIX by decide,
      show (3 : Nat) = exProtoABC.inputs.length + exProtoABC.outputs.length + 0
        by decide]
    exact h.2.2.1 0 (by decide)
  · rw [show ("a@GRAD" : String) =
        (protoInNames exProtoABC).getD 0 "" ++ GRAD_VAR_SUFFIX by decide]
    exact h.2.2.2 0 (by decide)

/-- C3.  The gradient node derived by `CreateGradOp` has inputs = forward
inputs ++ forward outputs ++ gradient-suffixed forward outputs, and
outputs = gradient-suffixed forward inputs, in order. -/
theorem createGradOp_wiring (reg : OpRegistry) (op gop : OperatorBase)
    (h : createGradOp reg op = Except.ok gop) :
    gop.inputs_ =
      op.inputs_ ++ op.outputs_ ++ op.outputs_.map (· ++ GRAD_VAR_SUFFIX) ∧
    gop.outputs_ = op.inputs_.map (· ++ GRAD_VAR_SUFFIX) := by
  unfold createGradOp at h
  cases hr : regLookup reg.grad_creators op.type_ with
  | none => rw [hr] at h; exact absurd h (by simp)
  | some fresh =>
    rw [hr] at h
    simp only [Except.ok.injEq] at h
    subst h
    simp [assembleGradInOut]

theorem createGradOp_wiring_witness :
    exGop.inputs_ = ["a", "b", "c", "c@GRAD"] ∧
    exGop.outputs_ = ["a@GRAD", "b@GRAD"] := by
  have h := createGradOp_wiring exGradReg exFwdOp exGop (by decide)
  constructor
  · rw [h.1]; decide
  · rw [h.2]; decide

theorem amLookup_amInsert_self (m : AttributeMap) (k : String) (v : Attribute) :
    amLookup (amInsert m k v) k = some v := by
  induction m with
  | nil => simp [amInsert, amLookup]
  | cons hd tl ih =>
    by_cases h : hd.1 = k
    · simp [amInsert, h, amLookup]
    · simp [amInsert, h, amLookup, ih]

theorem amLookup_amInsert_ne (m : AttributeMap) (k k' : String) (v : Attribute)
    (h : k ≠ k') : amLookup (amInsert m k' v) k = amLookup m k := by
  have h' : ¬(k' = k) := fun hh => h hh.symm
  induction m with
  | nil => simp [amInsert, amLookup, h']
  | cons hd tl ih =>
    by_cases hh : hd.1 = k'
    · have hdk : ¬(hd.1 = k) := by rw [hh]; exact h'
      simp [amInsert, hh, amLookup, h', hdk]
    · by_cases hk : hd.1 = k
      · simp [amInsert, hh, amLookup, hk, h]
      · simp [amInsert, hh, amLookup, hk, ih]

theorem amLookup_amErase_self (m : AttributeMap) (k : String) :
    amLookup (amErase m k) k = none := by
  induction m with
  | nil => simp [amErase, amLookup]
  | cons hd tl ih =>
    by_cases h : hd.1 = k
    · simpa [amErase, h] using ih
    · simpa [amErase, h, amLookup, List.filter] using ih

theorem amLookup_amErase_ne (m : AttributeMap) (k k' : String)
    (h : k ≠ k') : amLookup (amErase m k') k = amLookup m k := by
  have h' : ¬(k' = k) := fun hh => h hh.symm
  induction m with
  | nil => simp [amErase, amLookup]
  | cons hd tl ih =>
    by_cases hh : hd.1 = k'
    · have hdk : ¬(hd.1 = k) := by rw [hh]; exact h'
      simpa [amErase, hh, amLookup, hdk, h', List.filter] using ih
    · by_cases hk : hd.1 = k
      · simp [amErase, hh, amLookup, hk, h, List.filter]
      · simpa [amErase, hh, amLookup, hk, h, List.filter] using ih

/-- C1 (amended).  For every forward node carrying an `input_format` or
`output_format` attribute, the derived gradient node's `input_format` is
`[0..len_in)` ++ (`[0..len_out)` shifted by the forward bound input count)
++ (`[0..len_in)` shifted by the forward bound input and output counts),
where `len_in` is the *length* of the forward `input_format` when present
(otherwise the declared input slot count) and `len_out` likewise for the
forward `output_format` (otherwise the declared output slot count): the
`std::iota` sequenced by the comma operator after each conditional
overwrites the fetched offset values in both branches, and the middle
segment iterates the output-side array.  An `output_format` equal to
`[0..len_in)` — not the original offsets — is emitted exactly when the
forward node had an `input_format`.  When neither format attribute is
present, the gradient node carries neither. -/
theorem createGradOp_format_attrs (reg : OpRegistry) (op gop : OperatorBase)
    (proto : OpProto) (hp : regLookup reg.protos op.type_ = some proto)
    (h : createGradOp reg op = Except.ok gop) :
    (∀ f : List Int,
      amLookup op.attrs_ "input_format" = some (Attribute.ints f) →
      amLookup op.attrs_ "output_format" = none →
      amLookup gop.attrs_ "input_format" =
        some (Attribute.ints
          (intRange f.length ++
           (intRange proto.outputs.length).map (· + Int.ofNat op.inputs_.length) ++
           (intRange f.length).map
             (· + (Int.ofNat op.inputs_.length + Int.ofNat op.outputs_.length)))) ∧
      amLookup gop.attrs_ "output_format" =
        some (Attribute.ints (intRange f.length))) ∧
    (∀ g : List Int,
      amLookup op.attrs_ "input_format" = none →
      amLookup op.attrs_ "output_format" = some (Attribute.ints g) →
      amLookup gop.attrs_ "input_format" =
        some (Attribute.ints
          (intRange proto.inputs.length ++
           (intRange g.length).map (· + Int.ofNat op.inputs_.length) ++
           (intRange proto.inputs.length).map
             (· + (Int.ofNat op.inputs_.length + Int.ofNat op.outputs_.length)))) ∧
      amLookup gop.attrs_ "output_format" = none) ∧
    (∀ f g : List Int,
      amLookup op.attrs_ "input_format" = some (Attribute.ints f) →
      amLookup op.attrs_ "output_format" = some (Attribute.ints g) →
      amLookup gop.attrs_ "input_format" =
        some (Attribute.ints
          (intRange f.length ++
           (intRange g.length).map (· + Int.ofNat op.inputs_.length) ++
           (intRange f.length).map
             (· + (Int.ofNat op.inputs_.length + Int.ofNat op.outputs_.length)))) ∧
      amLookup gop.attrs_ "output_format" =
        some (Attribute.ints (intRange f.length))) ∧
    (amLookup op.attrs_ "input_format" = none →
     amLookup op.attrs_ "output_format" = none →
     amLookup gop.attrs_ "input_format" = none ∧
     amLookup gop.attrs_ "output_format" = none) := by
  have hgattrs : gop.attrs_ = generateGradAttr proto op := by
    unfold createGradOp at h
    cases hr : regLookup reg.grad_creators op.type_ with
    | none => rw [hr] at h; exact absurd h (by simp)
    | some fresh =>
      rw [hr, hp] at h
      simp only [Except.ok.injEq] at h
      subst h
      rfl
  refine ⟨?_, ?_, ?_, ?_⟩
  · intro f hin hout
    have hc1 : amContains op.attrs_ "input_format" = true := by
      simp [amContains, hin]
    have hc2 : amContains op.attrs_ "output_format" = false := by
      simp [amContains, hout]
    have hg : getAttrInts op "input_format" = f := by
      simp [getAttrInts, hin]
    rw [hgattrs]
    simp only [generateGradAttr, hc1, hc2, hg, Bool.true_or, if_true, if_pos]
    constructor
    · rw [amLookup_amInsert_ne _ _ _ _ (by decide), amLookup_amInsert_self]
      simp
    · rw [amLookup_amInsert_self]
  · intro g hin hout
    have hc1 : amContains op.attrs_ "input_format" = false := by
      simp [amContains, hin]
    have hc2 : amContains op.attrs_ "output_format" = true := by
      simp [amContains, hout]
    have hg : getAttrInts op "output_format" = g := by
      simp [getAttrInts, hout]
    rw [hgattrs]
    simp only [generateGradAttr, hc1, hc2, hg, Bool.false_or, if_true,
      Bool.false_eq_true, if_false]
    constructor
    · rw [amLookup_amInsert_self]
    · rw [amLookup_amInsert_ne _ _ _ _ (by decide), amLookup_amErase_self]
  · intro f g hin hout
    have hc1 : amContains op.attrs_ "input_format" = true := by
      simp [amContains, hin]
    have hc2 : amContains op.attrs_ "output_format" = true := by
      simp [amContains, hout]
    have hgi : getAttrInts op "input_format" = f := by
      simp [getAttrInts, hin]
    have hgo : getAttrInts op "output_format" = g := by
      simp [getAttrInts, hout]
    rw [hgattrs]
    simp only [generateGradAttr, hc1, hc2, hgi, hgo, Bool.true_or, if_true]
    constructor
    · rw [amLookup_amInsert_ne _ _ _ _ (by decide), amLookup_amInsert_self]
    · rw [amLookup_amInsert_self]
  · intro hin hout
    have hc1 : amContains op.attrs_ "input_format" = false := by
      simp [amContains, hin]
    have hc2 : amContains op.attrs_ "output_format" = false := by
      simp [amContains, hout]
    rw [hgattrs]
    simp only [generateGradAttr, hc1, hc2, Bool.or_self, Bool.false_eq_true,
      if_false]
    constructor
    · rw [amLookup_amErase_ne _ _ _ (by decide), amLookup_amErase_self]
    · rw [amLookup_amErase_self]

theorem createGradOp_format_attrs_counterexample :
    amLookup exGopGrouped.attrs_ "input_format" =
      some (Attribute.ints [0, 1, 2, 5, 6, 7, 8]) ∧
    amLookup exGopGrouped.attrs_ "input_format" ≠
      some (Attribute.ints [0, 2, 5, 5, 7, 10, 6, 8, 11]) ∧
    amLookup exGopGrouped.attrs_ "output_format" =
      some (Attribute.ints [0, 1, 2]) ∧
    amLookup exGopGrouped.attrs_ "output_format" ≠
      some (Attribute.ints [0, 2, 5]) := by
  decide

theorem createGradOp_format_attrs_witness :
    (amLookup exGopGrouped.attrs_ "input_format" =
       some (Attribute.ints [0, 1, 2, 5, 6, 7, 8]) ∧
     amLookup exGopGrouped.attrs_ "output_format" =
       some (Attribute.ints [0, 1, 2])) ∧
    (amLookup exGopBoth.attrs_ "input_format" =
       some (Attribute.ints [0, 1, 2, 5, 6, 7, 7, 8, 9]) ∧
     amLookup exGopBoth.attrs_ "output_format" =
       some (Attribute.ints [0, 1, 2])) := by
  have h := (createGradOp_format_attrs exRegGrouped exOpGrouped exGopGrouped
    exProtoGrouped (by decide) (by decide)).1 [0, 2, 5] (by decide) (by decide)
  have hb := (createGradOp_format_attrs exRegGrouped exOpBoth exGopBoth
    exProtoGrouped (by decide) (by decide)).2.2.1 [0, 2, 5] [0, 1, 2]
    (by decide) (by decide)
  refine ⟨⟨?_, ?_⟩, ⟨?_, ?_⟩⟩
  · rw [h.1]; decide
  · rw [h.2]; decide
  · rw [hb.1]; decide
  · rw [hb.2]; decide

theorem decDigitsCore_fuel_irrel (f1 : Nat) :
    ∀ f2 n : Nat, n < f1 → n < f2 → decDigitsCore f1 n = decDigitsCore f2 n := by
  induction f1 using Nat.strong_induction_on with
  | _ f1 ih =>
    intro f2 n h1 h2
    cases f1 with
    | zero => omega
    | succ g1 =>
      cases f2 with
      | zero => omega
      | succ g2 =>
        simp only [decDigitsCore]
        by_cases h : n < 10
        · simp [h]
        · simp only [h, if_false]
          have hlt : n / 10 < n := Nat.div_lt_self (by omega) (by omega)
          rw [ih g1 (by omega) g2 (n / 10) (by omega) (by omega)]

theorem decDigits_eq (n : Nat) :
    decDigits n =
      if n < 10 then [Char.ofNat (48 + n)]
      else decDigits (n / 10) ++ [Char.ofNat (48 + n % 10)] := by
  show decDigitsCore (n + 1) n = _
  by_cases h : n < 10
  · simp [decDigitsCore, h]
  · simp only [decDigitsCore, h, if_false]
    have hlt : n / 10 < n := Nat.div_lt_self (by omega) (by omega)
    rw [decDigitsCore_fuel_irrel n (n / 10 + 1) (n / 10) (by omega) (by omega)]
    rfl

theorem decDigits_no_at (n : Nat) : '@' ∉ decDigits n := by
  induction n using Nat.strong_induction_on with
  | _ n ih =>
    rw [decDigits_eq]
    by_cases h : n < 10
    · simp only [h, if_true, List.mem_singleton]
      interval_cases n <;> decide
    · simp only [h, if_false, List.mem_append, List.mem_singleton, not_or]
      refine ⟨ih (n / 10) (Nat.div_lt_self (by omega) (by omega)), ?_⟩
      have h10 : n % 10 < 10 := Nat.mod_lt _ (by omega)
      set m := n % 10 with hm
      interval_cases m <;> decide

theorem fromDec_decDigits (n : Nat) : fromDecAux 0 (decDigits n) = n := by
  induction n using Nat.strong_induction_on with
  | _ n ih =>
    rw [decDigits_eq]
    by_cases h : n < 10
    · simp only [h, if_true, fromDecAux, List.foldl]
      interval_cases n <;> decide
    · simp only [h, if_false]
      have happ : fromDecAux 0 (decDigits (n / 10) ++ [Char.ofNat (48 + n % 10)]) =
          fromDecAux (fromDecAux 0 (decDigits (n / 10))) [Char.ofNat (48 + n % 10)] := by
        simp [fromDecAux, List.foldl_append]
      rw [happ, ih (n / 10) (Nat.div_lt_self (by omega) (by omega))]
      have h10 : n % 10 < 10 := Nat.mod_lt _ (by omega)
      have hm : (Char.ofNat (48 + n % 10)).toNat = 48 + n % 10 := by
        set m := n % 10 with hmm
        interval_cases m <;> decide
      simp only [fromDecAux, List.foldl, hm]
      omega

theorem decDigits_inj (n1 n2 : Nat) (h : decDigits n1 = decDigits n2) : n1 = n2 := by
  rw [← fromDec_decDigits n1, ← fromDec_decDigits n2, h]

theorem append_atSign_inj (x1 : List Char) (r1 : List Char) :
    ∀ (x2 r2 : List Char), '@' ∉ x1 → '@' ∉ x2 →
      x1 ++ '@' :: r1 = x2 ++ '@' :: r2 → x1 = x2 ∧ r1 = r2 := by
  induction x1 with
  | nil =>
    intro x2 r2 _ h2 h
    cases x2 with
    | nil => simpa using h
    | cons d ds =>
      simp only [List.nil_append, List.cons_append, List.cons.injEq] at h
      exact absurd (h.1 ▸ List.mem_cons_self d ds) (h.1 ▸ h2)
  | cons c cs ih =>
    intro x2 r2 h1 h2 h
    cases x2 with
    | nil =>
      simp only [List.cons_append, List.nil_append, List.cons.injEq] at h
      exact absurd (h.1 ▸ List.mem_cons_self c cs) (by rw [h.1] at h1; exact h1)
    | cons d ds =>
      simp only [List.cons_append, List.cons.injEq] at h
      have hr := ih ds r2 (by simp only [List.mem_cons, not_or] at h1; exact h1.2)
        (by simp only [List.mem_cons, not_or] at h2; exact h2.2) h.2
      exact ⟨by rw [h.1, hr.1], hr.2⟩

theorem mkTempName_inj (ty1 ty2 : String) (n1 n2 : Nat)
    (h : mkTempName ty1 n1 = mkTempName ty2 n2) : n1 = n2 := by
  have hd : (mkTempName ty1 n1).data = (mkTempName ty2 n2).data := by rw [h]
  simp only [mkTempName, toStringNat, String.data_append] at hd
  have hrev := congrArg List.reverse hd
  simp only [List.reverse_append] at hrev
  have hshape : ∀ ty : String, ∀ n : Nat,
      (String.mk (decDigits n)).data.reverse ++
        (("@" : String).data.reverse ++ (ty.data.reverse ++ TMP_VAR_NAME.data.reverse)) =
      (decDigits n).reverse ++ '@' :: (ty.data.reverse ++ TMP_VAR_NAME.data.reverse) := by
    intro ty n
    rfl
  rw [hshape ty1 n1, hshape ty2 n2] at hrev
  have hnoat1 : '@' ∉ (decDigits n1).reverse := by
    simpa [List.mem_reverse] using decDigits_no_at n1
  have hnoat2 : '@' ∉ (decDigits n2).reverse := by
    simpa [List.mem_reverse] using decDigits_no_at n2
  have := append_atSign_inj _ _ _ _ hnoat1 hnoat2 hrev
  exact decDigits_inj n1 n2 (List.reverse_injective this.1)

theorem countTmp_cons (o : String) (l : List String) :
    countTmp (o :: l) =
      (if o = TMP_VAR_NAME then countTmp l + 1 else countTmp l) := by
  by_cases h : o = TMP_VAR_NAME <;> simp [countTmp, h, List.filter_cons]

theorem generateTempVariableName_snd (ty : String) (os : List String) :
    ∀ c : Nat, (generateTempVariableName ty os c).2 = c + countTmp os := by
  induction os with
  | nil => intro c; simp [generateTempVariableName, countTmp]
  | cons o os ih =>
    intro c
    by_cases h : o = TMP_VAR_NAME
    · simp [generateTempVariableName, h, ih, countTmp_cons]
      omega
    · simp [generateTempVariableName, h, ih, countTmp_cons]

theorem generateTempVariableName_getD (ty : String) (os : List String) :
    ∀ c i : Nat, i < os.length →
      (generateTempVariableName ty os c).1.getD i "" =
        (if os.getD i "" = TMP_VAR_NAME
         then mkTempName ty (c + countTmp (os.take i))
         else os.getD i "") := by
  induction os with
  | nil => intro c i hi; simp at hi
  | cons o os ih =>
    intro c i hi
    cases i with
    | zero =>
      by_cases ho : o = TMP_VAR_NAME
      · simp [generateTempVariableName, ho, countTmp]
      · simp [generateTempVariableName, ho]
    | succ j =>
      have hj : j < os.length := by simpa using hi
      by_cases ho : o = TMP_VAR_NAME
      · have hrec := ih (c + 1) j hj
        simp only [generateTempVariableName, ho, if_true, List.getD_cons_succ,
          List.take_succ_cons]
        rw [hrec]
        by_cases hx : os.getD j "" = TMP_VAR_NAME
        · simp only [hx, if_true]
          congr 1
          rw [countTmp_cons]
          simp
          omega
        · simp_all [List.getD]
      · have hrec := ih c j hj
        simp only [generateTempVariableName, ho, if_false, List.getD_cons_succ,
          List.take_succ_cons]
        rw [hrec]
        by_cases hx : os.getD j "" = TMP_VAR_NAME
        · simp only [hx, if_true]
          congr 1
          rw [countTmp_cons, if_neg ho]
        · simp_all [List.getD]

theorem createOp_outputs_eq (reg : OpRegistry) (c : Nat) (ty : String)
    (ins outs : List String) (attrs : AttributeMap) (node : OperatorBase)
    (c2 : Nat) (h : createOp reg c ty ins outs attrs = Except.ok (node, c2)) :
    node.outputs_ = (generateTempVariableName ty outs c).1 ∧
    c2 = (generateTempVariableName ty outs c).2 := by
  simp only [createOp] at h
  cases h1 : regLookup reg.creators ty with
  | none => rw [h1] at h; exact absurd h (by simp)
  | some fresh =>
    rw [h1] at h
    cases h2 : regLookup reg.op_checkers ty with
    | none => rw [h2] at h; exact absurd h (by simp)
    | some chk =>
      rw [h2] at h
      by_cases h3 : checkAttrMap chk attrs = true
      · simp only [h3, if_true] at h
        cases h4 : regLookup reg.var_index_maps ty with
        | none =>
          rw [h4] at h
          simp only [Except.ok.injEq, Prod.mk.injEq] at h
          exact ⟨by rw [← h.1], h.2.symm⟩
        | some idxs =>
          rw [h4] at h
          simp only [Except.ok.injEq, Prod.mk.injEq] at h
          exact ⟨by rw [← h.1], h.2.symm⟩
      · simp only [Bool.not_eq_true] at h3
        simp [h3] at h

/-- C4.  In `CreateOp`, each bound output equal to the auto-temporary
sentinel is rewritten to the sentinel followed by the kind name, `"@"`,
and the next value of the process-wide counter; the counter advances by
the number of sentinel outputs and is never reset, and names generated
from distinct counter values are never equal, whatever the kind names —
which is what makes the atomic `fetch_add` discipline yield process-wide
uniqueness, including for concurrent calls. -/
theorem createOp_temp_names_unique :
    (∀ (reg : OpRegistry) (c : Nat) (ty : String) (ins outs : List String)
       (attrs : AttributeMap) (node : OperatorBase) (c2 : Nat),
       createOp reg c ty ins outs attrs = Except.ok (node, c2) →
       node.outputs_ = (generateTempVariableName ty outs c).1 ∧
       c2 = (generateTempVariableName ty outs c).2) ∧
    (∀ (ty : String) (os : List String) (c : Nat),
       (generateTempVariableName ty os c).2 = c + countTmp os) ∧
    (∀ (ty : String) (os : List String) (c i : Nat), i < os.length →
       (generateTempVariableName ty os c).1.getD i "" =
         (if os.getD i "" = TMP_VAR_NAME
          then mkTempName ty (c + countTmp (os.take i))
          else os.getD i "")) ∧
    (∀ (ty1 ty2 : String) (n1 n2 : Nat), n1 ≠ n2 →
       mkTempName ty1 n1 ≠ mkTempName ty2 n2) :=
  ⟨createOp_outputs_eq,
   generateTempVariableName_snd,
   generateTempVariableName_getD,
   fun ty1 ty2 n1 n2 hne heq => hne (mkTempName_inj ty1 ty2 n1 n2 heq)⟩

theorem createOp_temp_names_unique_witness :
    exTmpNode.outputs_ = [mkTempName "k" 5] ∧
    mkTempName "add" 0 ≠ mkTempName "sub" 1 := by
  have h0 := createOp_temp_names_unique.1 exTmpReg 5 "k" [] [TMP_VAR_NAME] []
      exTmpNode 6 (by decide)
  constructor
  · rw [h0.1]; decide
  · exact createOp_temp_names_unique.2.2.2 "add" "sub" 0 1 (by decide)

theorem countAttrIn_append (l1 l2 : List AttrProto) (nm : String) :
    countAttrIn (l1 ++ l2) nm = countAttrIn l1 nm + countAttrIn l2 nm := by
  simp [countAttrIn, List.filter_append]

theorem countAttrIn_single (a : AttrProto) (nm : String) :
    countAttrIn [a] nm = if a.name = nm then 1 else 0 := by
  by_cases h : a.name = nm <;> simp [countAttrIn, h]

theorem makerFormatInv_addAttr_user (m : OpProtoAndCheckerMaker)
    (n c : String) (ty : AttrType) (g : Bool) (d : Option Attribute)
    (hn1 : ¬(n = "input_format")) (hn2 : ¬(n = "output_format"))
    (hn3 : ¬(n = "temporary_index")) (hm : makerFormatInv m) :
    makerFormatInv (makerAddAttr m n c ty g d) := by
  obtain ⟨c1, c2, c3, s1, s2, s3⟩ := hm
  refine ⟨?_, ?_, ?_, ?_, ?_, ?_⟩
  · simpa [makerAddAttr, countAttrIn_append, countAttrIn_single, hn1] using c1
  · simpa [makerAddAttr, countAttrIn_append, countAttrIn_single, hn2] using c2
  · simpa [makerAddAttr, countAttrIn_append, countAttrIn_single, hn3] using c3
  · intro a ha hres
    simp only [makerAddAttr, List.mem_append, List.mem_singleton] at ha
    rcases ha with ha | ha
    · exact s1 a ha hres
    · subst ha; simp at hres; tauto
  · intro d' hd hres
    simp only [makerAddAttr, List.mem_append, List.mem_singleton] at hd
    rcases hd with hd | hd
    · exact s2 d' hd hres
    · subst hd; simp at hres; tauto
  · intro d' hd hres
    simp only [makerAddAttr, List.mem_append, List.mem_singleton] at hd
    rcases hd with hd | hd
    · exact s3 d' hd hres
    · subst hd; simp at hres; tauto

theorem makerFormatInv_setHasMultipleInput (m : OpProtoAndCheckerMaker)
    (hm : makerFormatInv m) : makerFormatInv (setHasMultipleInput m) := by
  obtain ⟨c1, c2, c3, s1, s2, s3⟩ := hm
  by_cases hflag : m.has_multiple_input
  · refine ⟨?_, ?_, ?_, ?_, ?_, ?_⟩ <;>
      simp_all [setHasMultipleInput, setHasMultiple, hflag]
  · simp only [setHasMultipleInput, setHasMultiple, hflag, Bool.not_false, if_true,
      makerAddAttr]
    refine ⟨?_, ?_, ?_, ?_, ?_, ?_⟩
    · simp [countAttrIn_append, countAttrIn_single, c1, hflag]
    · simpa [countAttrIn_append, countAttrIn_single] using c2
    · simpa [countAttrIn_append, countAttrIn_single] using c3
    · intro a ha hres
      simp only [List.mem_append, List.mem_singleton] at ha
      rcases ha with ha | ha
      · exact s1 a ha hres
      · subst ha; exact ⟨rfl, rfl⟩
    · intro d hd hres
      simp only [List.mem_append, List.mem_singleton] at hd
      rcases hd with hd | hd
      · exact s2 d hd hres
      · subst hd; rfl
    · intro d hd hres
      simp only [List.mem_append, List.mem_singleton] at hd
      rcases hd with hd | hd
      · exact s3 d hd hres
      · subst hd; simp at hres

theorem makerFormatInv_setHasMultipleOutput (m : OpProtoAndCheckerMaker)
    (hm : makerFormatInv m) : makerFormatInv (setHasMultipleOutput m) := by
  obtain ⟨c1, c2, c3, s1, s2, s3⟩ := hm
  by_cases hflag : m.has_multiple_output
  · refine ⟨?_, ?_, ?_, ?_, ?_, ?_⟩ <;>
      simp_all [setHasMultipleOutput, setHasMultiple, hflag]
  · simp only [setHasMultipleOutput, setHasMultiple, hflag, Bool.not_false, if_true,
      makerAddAttr]
    refine ⟨?_, ?_, ?_, ?_, ?_, ?_⟩
    · simpa [countAttrIn_append, countAttrIn_single] using c1
    · simp [countAttrIn_append, countAttrIn_single, c2, hflag]
    · simpa [countAttrIn_append, countAttrIn_single] using c3
    · intro a ha hres
      simp only [List.mem_append, List.mem_singleton] at ha
      rcases ha with ha | ha
      · exact s1 a ha hres
      · subst ha; exact ⟨rfl, rfl⟩
    · intro d hd hres
      simp only [List.mem_append, List.mem_singleton] at hd
      rcases hd with hd | hd
      · exact s2 d hd hres
      · subst hd; rfl
    · intro d hd hres
      simp only [List.mem_append, List.mem_singleton] at hd
      rcases hd with hd | hd
      · exact s3 d hd hres
      · subst hd; simp at hres

theorem makerFormatInv_setHasTemporaryOutput (m : OpProtoAndCheckerMaker)
    (hm : makerFormatInv m) : makerFormatInv (setHasTemporaryOutput m) := by
  obtain ⟨c1, c2, c3, s1, s2, s3⟩ := hm
  by_cases hflag : m.has_temporary_output
  · refine ⟨?_, ?_, ?_, ?_, ?_, ?_⟩ <;>
      simp_all [setHasTemporaryOutput, hflag]
  · simp only [setHasTemporaryOutput, hflag, Bool.not_false, if_true, makerAddAttr]
    refine ⟨?_, ?_, ?_, ?_, ?_, ?_⟩
    · simpa [countAttrIn_append, countAttrIn_single] using c1
    · simpa [countAttrIn_append, countAttrIn_single] using c2
    · simp [countAttrIn_append, countAttrIn_single, c3, hflag]
    · intro a ha hres
      simp only [List.mem_append, List.mem_singleton] at ha
      rcases ha with ha | ha
      · exact s1 a ha hres
      · subst ha; exact ⟨rfl, rfl⟩
    · intro d hd hres
      simp only [List.mem_append, List.mem_singleton] at hd
      rcases hd with hd | hd
      · exact s2 d hd hres
      · subst hd; simp at hres
    · intro d hd hres
      simp only [List.mem_append, List.mem_singleton] at hd
      rcases hd with hd | hd
      · exact s3 d hd hres
      · subst hd; rfl

theorem makerFormatInv_addInputSlot (m : OpProtoAndCheckerMaker)
    (name comment : String) (multiple : Bool) (hm : makerFormatInv m) :
    makerFormatInv
      { m with proto := { m.proto with
          inputs := m.proto.inputs ++
            [{ name := name, comment := comment, multiple := multiple,
               temporary := false }] } } := by
  obtain ⟨c1, c2, c3, s1, s2, s3⟩ := hm
  exact ⟨c1, c2, c3, s1, s2, s3⟩

theorem makerFormatInv_addOutputSlot (m : OpProtoAndCheckerMaker)
    (name comment : String) (multiple temporary : Bool) (hm : makerFormatInv m) :
    makerFormatInv
      { m with proto := { m.proto with
          outputs := m.proto.outputs ++
            [{ name := name, comment := comment, multiple := multiple,
               temporary := temporary }] } } := by
  obtain ⟨c1, c2, c3, s1, s2, s3⟩ := hm
  exact ⟨c1, c2, c3, s1, s2, s3⟩

theorem makerFormatInv_step (m : OpProtoAndCheckerMaker) (cmd : MakerCmd)
    (h1 : cmdAddsAttrNamed "input_format" cmd = false)
    (h2 : cmdAddsAttrNamed "output_format" cmd = false)
    (h3 : cmdAddsAttrNamed "temporary_index" cmd = false)
    (hm : makerFormatInv m) : makerFormatInv (runMakerCmd m cmd) := by
  cases cmd with
  | addInput name comment multiple =>
    simp only [runMakerCmd, makerAddInput]
    by_cases hmul : multiple
    · simp only [hmul, if_true]
      exact makerFormatInv_setHasMultipleInput _
        (makerFormatInv_addInputSlot m name comment multiple hm)
    · simp only [hmul, if_false]
      exact makerFormatInv_addInputSlot m name comment multiple hm
  | addInputs name comment =>
    simp only [runMakerCmd, makerAddInput, if_true]
    exact makerFormatInv_setHasMultipleInput _
      (makerFormatInv_addInputSlot m name comment true hm)
  | addOutput name comment temporary multiple =>
    simp only [runMakerCmd, makerAddOutput]
    by_cases hmul : multiple <;> by_cases htmp : temporary <;>
      simp only [hmul, htmp, if_true, if_false] <;>
      first
      | exact makerFormatInv_setHasTemporaryOutput _
          (makerFormatInv_setHasMultipleOutput _
            (makerFormatInv_addOutputSlot m name comment multiple temporary hm))
      | exact makerFormatInv_setHasMultipleOutput _
          (makerFormatInv_addOutputSlot m name comment multiple temporary hm)
      | exact makerFormatInv_setHasTemporaryOutput _
          (makerFormatInv_addOutputSlot m name comment multiple temporary hm)
      | exact makerFormatInv_addOutputSlot m name comment multiple temporary hm
  | addOutputs name comment temporary =>
    simp only [runMakerCmd, makerAddOutput, if_true]
    by_cases htmp : temporary <;> simp only [htmp, if_true, if_false] <;>
      first
      | exact makerFormatInv_setHasTemporaryOutput _
          (makerFormatInv_setHasMultipleOutput _
            (makerFormatInv_addOutputSlot m name comment true temporary hm))
      | exact makerFormatInv_setHasMultipleOutput _
          (makerFormatInv_addOutputSlot m name comment true temporary hm)
  | addAttr n c ty g d =>
    simp only [cmdAddsAttrNamed, decide_eq_false_iff_not] at h1 h2 h3
    exact makerFormatInv_addAttr_user m n c ty g d h1 h2 h3 hm
  | addComment c =>
    obtain ⟨c1, c2, c3, s1, s2, s3⟩ := hm
    exact ⟨c1, c2, c3, s1, s2, s3⟩

theorem makerFormatInv_run (cmds : List MakerCmd) :
    ∀ m : OpProtoAndCheckerMaker,
      (∀ cmd ∈ cmds, cmdAddsAttrNamed "input_format" cmd = false ∧
        cmdAddsAttrNamed "output_format" cmd = false ∧
        cmdAddsAttrNamed "temporary_index" cmd = false) →
      makerFormatInv m → makerFormatInv (runMaker m cmds) := by
  induction cmds with
  | nil => intro m _ hm; exact hm
  | cons cmd cmds ih =>
    intro m hres hm
    have hc := hres cmd (List.mem_cons_self cmd cmds)
    exact ih (runMakerCmd m cmd)
      (fun c hcmem => hres c (List.mem_cons_of_mem cmd hcmem))
      (makerFormatInv_step m cmd hc.1 hc.2.1 hc.2.2 hm)

theorem makerFormatInv_emptyMaker : makerFormatInv emptyMaker := by
  refine ⟨?_, ?_, ?_, ?_, ?_, ?_⟩ <;>
    simp [emptyMaker, emptyOpProto, countAttrIn]

theorem setHasMultipleInput_fst (m : OpProtoAndCheckerMaker) :
    (setHasMultipleInput m).has_multiple_input = true := by
  by_cases h : m.has_multiple_input <;>
    simp [setHasMultipleInput, setHasMultiple, makerAddAttr, h]

theorem setHasMultipleInput_snd (m : OpProtoAndCheckerMaker) :
    (setHasMultipleInput m).has_multiple_output = m.has_multiple_output := by
  by_cases h : m.has_multiple_input <;>
    simp [setHasMultipleInput, setHasMultiple, makerAddAttr, h]

theorem setHasMultipleInput_trd (m : OpProtoAndCheckerMaker) :
    (setHasMultipleInput m).has_temporary_output = m.has_temporary_output := by
  by_cases h : m.has_multiple_input <;>
    simp [setHasMultipleInput, setHasMultiple, makerAddAttr, h]

theorem setHasMultipleOutput_fst (m : OpProtoAndCheckerMaker) :
    (setHasMultipleOutput m).has_multiple_input = m.has_multiple_input := by
  by_cases h : m.has_multiple_output <;>
    simp [setHasMultipleOutput, setHasMultiple, makerAddAttr, h]

theorem setHasMultipleOutput_snd (m : OpProtoAndCheckerMaker) :
    (setHasMultipleOutput m).has_multiple_output = true := by
  by_cases h : m.has_multiple_output <;>
    simp [setHasMultipleOutput, setHasMultiple, makerAddAttr, h]

theorem setHasMultipleOutput_trd (m : OpProtoAndCheckerMaker) :
    (setHasMultipleOutput m).has_temporary_output = m.has_temporary_output := by
  by_cases h : m.has_multiple_output <;>
    simp [setHasMultipleOutput, setHasMultiple, makerAddAttr, h]

theorem setHasTemporaryOutput_fst (m : OpProtoAndCheckerMaker) :
    (setHasTemporaryOutput m).has_multiple_input = m.has_multiple_input := by
  by_cases h : m.has_temporary_output <;>
    simp [setHasTemporaryOutput, makerAddAttr, h]

theorem setHasTemporaryOutput_snd (m : OpProtoAndCheckerMaker) :
    (setHasTemporaryOutput m).has_multiple_output = m.has_multiple_output := by
  by_cases h : m.has_temporary_output <;>
    simp [setHasTemporaryOutput, makerAddAttr, h]

theorem setHasTemporaryOutput_trd (m : OpProtoAndCheckerMaker) :
    (setHasTemporaryOutput m).has_temporary_output = true := by
  by_cases h : m.has_temporary_output <;>
    simp [setHasTemporaryOutput, makerAddAttr, h]

theorem runMakerCmd_flags (m : OpProtoAndCheckerMaker) (cmd : MakerCmd) :
    (runMakerCmd m cmd).has_multiple_input =
      (m.has_multiple_input || declaresMultipleInput cmd) ∧
    (runMakerCmd m cmd).has_multiple_output =
      (m.has_multiple_output || declaresMultipleOutput cmd) ∧
    (runMakerCmd m cmd).has_temporary_output =
      (m.has_temporary_output || declaresTemporaryOutput cmd) := by
  cases cmd with
  | addInput name comment multiple =>
    by_cases hmul : multiple <;> by_cases hflag : m.has_multiple_input <;>
      simp [runMakerCmd, makerAddInput, hmul, hflag, declaresMultipleInput,
        declaresMultipleOutput, declaresTemporaryOutput, setHasMultipleInput_fst,
        setHasMultipleInput_snd, setHasMultipleInput_trd,
        setHasMultipleInput, setHasMultiple, makerAddAttr]
  | addInputs name comment =>
    by_cases hflag : m.has_multiple_input <;>
      simp [runMakerCmd, makerAddInput, hflag, declaresMultipleInput,
        declaresMultipleOutput, declaresTemporaryOutput,
        setHasMultipleInput, setHasMultiple, makerAddAttr]
  | addOutput name comment temporary multiple =>
    by_cases hmul : multiple <;> by_cases htmp : temporary <;>
      simp [runMakerCmd, makerAddOutput, hmul, htmp, declaresMultipleInput,
        declaresMultipleOutput, declaresTemporaryOutput,
        setHasMultipleOutput_fst, setHasMultipleOutput_snd, setHasMultipleOutput_trd,
        setHasTemporaryOutput_fst, setHasTemporaryOutput_snd,
        setHasTemporaryOutput_trd]
  | addOutputs name comment temporary =>
    by_cases htmp : temporary <;>
      simp [runMakerCmd, makerAddOutput, htmp, declaresMultipleInput,
        declaresMultipleOutput, declaresTemporaryOutput,
        setHasMultipleOutput_fst, setHasMultipleOutput_snd, setHasMultipleOutput_trd,
        setHasTemporaryOutput_fst, setHasTemporaryOutput_snd,
        setHasTemporaryOutput_trd]
  | addAttr n c ty g d =>
    simp [runMakerCmd, makerAddAttr, declaresMultipleInput,
      declaresMultipleOutput, declaresTemporaryOutput]
  | addComment c =>
    simp [runMakerCmd, declaresMultipleInput, declaresMultipleOutput,
      declaresTemporaryOutput]

theorem runMaker_flags (cmds : List MakerCmd) :
    ∀ m : OpProtoAndCheckerMaker,
      (runMaker m cmds).has_multiple_input =
        (m.has_multiple_input || cmds.any declaresMultipleInput) ∧
      (runMaker m cmds).has_multiple_output =
        (m.has_multiple_output || cmds.any declaresMultipleOutput) ∧
      (runMaker m cmds).has_temporary_output =
        (m.has_temporary_output || cmds.any declaresTemporaryOutput) := by
  induction cmds with
  | nil => intro m; simp [runMaker]
  | cons cmd cmds ih =>
    intro m
    have hs := runMakerCmd_flags m cmd
    have hr := ih (runMakerCmd m cmd)
    refine ⟨?_, ?_, ?_⟩ <;>
      simp [runMaker, hr.1, hr.2.1, hr.2.2, hs.1, hs.2.1, hs.2.2, List.any_cons,
        Bool.or_assoc]

/-- C5 (amended).  Over any sequence of builder declarations whose user
attributes avoid the bookkeeping names, the schema ends with exactly one
`input_format` attribute iff some multiple input was declared (else none) —
likewise `output_format` for multiple outputs and `temporary_index` for
temporary outputs — each injected with `generated = true` and list-of-int
type; the injected `input_format`/`output_format` checkers carry *no*
default value, while `temporary_index` defaults to the empty list. -/
theorem maker_injects_format_attrs_once (cmds : List MakerCmd)
    (hres : ∀ cmd ∈ cmds, cmdAddsAttrNamed "input_format" cmd = false ∧
      cmdAddsAttrNamed "output_format" cmd = false ∧
      cmdAddsAttrNamed "temporary_index" cmd = false) :
    countAttrIn (runMaker emptyMaker cmds).proto.attrs "input_format" =
      (if cmds.any declaresMultipleInput then 1 else 0) ∧
    countAttrIn (runMaker emptyMaker cmds).proto.attrs "output_format" =
      (if cmds.any declaresMultipleOutput then 1 else 0) ∧
    countAttrIn (runMaker emptyMaker cmds).proto.attrs "temporary_index" =
      (if cmds.any declaresTemporaryOutput then 1 else 0) ∧
    (∀ a ∈ (runMaker emptyMaker cmds).proto.attrs,
       a.name = "input_format" ∨ a.name = "output_format" ∨
         a.name = "temporary_index" →
       a.generated = true ∧ a.type = AttrType.INTS) ∧
    (∀ d ∈ (runMaker emptyMaker cmds).op_checker,
       d.name = "input_format" ∨ d.name = "output_format" →
       d.defaultValue = none) ∧
    (∀ d ∈ (runMaker emptyMaker cmds).op_checker, d.name = "temporary_index" →
       d.defaultValue = some (Attribute.ints [])) := by
  have hinv := makerFormatInv_run cmds emptyMaker hres makerFormatInv_emptyMaker
  have hflags := runMaker_flags cmds emptyMaker
  obtain ⟨c1, c2, c3, s1, s2, s3⟩ := hinv
  refine ⟨?_, ?_, ?_, s1, s2, s3⟩
  · rw [c1, hflags.1]; simp [emptyMaker]
  · rw [c2, hflags.2.1]; simp [emptyMaker]
  · rw [c3, hflags.2.2]; simp [emptyMaker]

theorem maker_injects_format_attrs_counterexample :
    (runMaker emptyMaker [MakerCmd.addInputs "X" "doc"]).op_checker =
      [{ name := "input_format", type := AttrType.INTS, defaultValue := none }] ∧
    ¬∃ d ∈ (runMaker emptyMaker [MakerCmd.addInputs "X" "doc"]).op_checker,
        d.name = "input_format" ∧ d.defaultValue = some (Attribute.ints []) := by
  decide

theorem maker_injects_format_attrs_witness :
    countAttrIn (runMaker emptyMaker exCmds).proto.attrs "input_format" = 1 ∧
    countAttrIn (runMaker emptyMaker exCmds).proto.attrs "temporary_index" = 1 := by
  have h := maker_injects_format_attrs_once exCmds (by decide)
  constructor
  · rw [h.1]; decide
  · rw [h.2.2.1]; decide

theorem checkDupAux_iff (l : List String) :
    ∀ seen : List String,
      checkDupAux l seen = true ↔ (l.Nodup ∧ ∀ x ∈ l, x ∉ seen) := by
  induction l with
  | nil => intro seen; simp [checkDupAux]
  | cons n rest ih =>
    intro seen
    by_cases h : n ∈ seen
    · simp only [checkDupAux, h, if_true, Bool.false_eq_true, false_iff, not_and]
      intro _ hall
      exact absurd h (hall n (List.mem_cons_self n rest))
    · simp only [checkDupAux, h, if_false]
      rw [ih (n :: seen)]
      constructor
      · rintro ⟨hnd, hall⟩
        refine ⟨List.nodup_cons.mpr ⟨fun hc => ?_, hnd⟩, fun x hx => ?_⟩
        · exact (hall n hc) (List.mem_cons_self n seen)
        · rcases List.mem_cons.mp hx with he | hs
          · rw [he]; exact h
          · intro hsx
            exact (hall x hs) (List.mem_cons_of_mem n hsx)
      · rintro ⟨hnd, hall⟩
        obtain ⟨hn, hrest⟩ := List.nodup_cons.mp hnd
        refine ⟨hrest, fun x hx => ?_⟩
        intro hmem
        rcases List.mem_cons.mp hmem with he | hs
        · exact hn (he ▸ hx)
        · exact (hall x (List.mem_cons_of_mem n hx)) hs

/-- C6.  `Validate()` fails with a validation error exactly when some name
occurs more than once across the schema's attributes, inputs and outputs
(framework-injected attributes included); with all names distinct it
succeeds and marks the builder validated. -/
theorem makerValidate_iff (m : OpProtoAndCheckerMaker) :
    ((∃ e, makerValidate m = Except.error e) ↔ ¬(makerAllNames m).Nodup) ∧
    ((makerAllNames m).Nodup →
      makerValidate m = Except.ok { m with validated := true }) := by
  have hch : checkNoDuplicatedInOutAttrs { m with validated := true } =
      checkDupAux (makerAllNames m) [] := rfl
  have hiff := checkDupAux_iff (makerAllNames m) []
  have htrue : (makerAllNames m).Nodup →
      checkNoDuplicatedInOutAttrs { m with validated := true } = true := by
    intro hnd
    rw [hch]
    exact hiff.mpr ⟨hnd, by simp⟩
  have hfalse : ¬(makerAllNames m).Nodup →
      checkNoDuplicatedInOutAttrs { m with validated := true } = false := by
    intro hnnd
    rw [hch]
    cases hb : checkDupAux (makerAllNames m) [] with
    | false => rfl
    | true => exact absurd (hiff.mp hb).1 hnnd
  constructor
  · constructor
    · rintro ⟨e, he⟩ hnd
      simp only [makerValidate, htrue hnd, if_true] at he
      exact Except.noConfusion he
    · intro hnnd
      refine ⟨OpError.validation "duplicated name in proto", ?_⟩
      simp only [makerValidate, hfalse hnnd, Bool.false_eq_true, if_false]
  · intro hnd
    simp only [makerValidate, htrue hnd, if_true]

theorem makerValidate_iff_witness :
    makerValidate (runMaker emptyMaker exCmds) =
      Except.ok { runMaker emptyMaker exCmds with validated := true } ∧
    (∃ e, makerValidate exDupMaker = Except.error e) := by
  constructor
  · exact (makerValidate_iff (runMaker emptyMaker exCmds)).2 (by decide)
  · exact (makerValidate_iff exDupMaker).1.mpr (by decide)

/-- C7.  Unknown kind in `CreateOp` → not-found error; attribute map
failing the kind's checker → validation error; serialized attribute with
an unrecognized type tag → fatal decode error; `CreateGradOp` on a kind
with no registered gradient creator → failure.  Each error is returned
synchronously and no operator node is produced. -/
theorem registry_error_handling :
    (∀ (reg : OpRegistry) (c : Nat) (ty : String) (ins outs : List String)
       (attrs : AttributeMap),
       regLookup reg.creators ty = none →
       createOp reg c ty ins outs attrs =
         Except.error
           (OpError.notFound ("Operator " ++ ty ++ " cannot be found."))) ∧
    (∀ (reg : OpRegistry) (c : Nat) (ty : String) (ins outs : List String)
       (attrs : AttributeMap) (fresh : OperatorBase) (chk : OpAttrChecker),
       regLookup reg.creators ty = some fresh →
       regLookup reg.op_checkers ty = some chk →
       checkAttrMap chk attrs = false →
       createOp reg c ty ins outs attrs =
         Except.error
           (OpError.validation ("Attribute check failed for " ++ ty))) ∧
    (∀ d : AttrDesc, 6 ≤ d.type →
       getAttrValue d =
         Except.error
           (OpError.decodeFailure "Unknown OpDesc::AttrDesc::type !")) ∧
    (∀ (reg : OpRegistry) (op : OperatorBase),
       regLookup reg.grad_creators op.type_ = none →
       createGradOp reg op =
         Except.error (OpError.outOfRange "grad_creators().at")) := by
  refine ⟨?_, ?_, ?_, ?_⟩
  · intro reg c ty ins outs attrs h
    simp [createOp, h]
  · intro reg c ty ins outs attrs fresh chk h1 h2 h3
    simp [createOp, h1, h2, h3]
  · intro d hd
    obtain ⟨k, hk⟩ : ∃ k, d.type = k + 6 := ⟨d.type - 6, by omega⟩
    simp only [getAttrValue, hk]
  · intro reg op h
    simp [createGradOp, h]

theorem registry_error_handling_witness :
    createOp emptyReg 0 "nope" [] [] [] =
      Except.error
        (OpError.notFound ("Operator " ++ "nope" ++ " cannot be found.")) ∧
    createOp exChkReg 0 "ck" [] [] [] =
      Except.error
        (OpError.validation ("Attribute check failed for " ++ "ck")) ∧
    getAttrValue exBadDesc =
      Except.error (OpError.decodeFailure "Unknown OpDesc::AttrDesc::type !") ∧
    createGradOp emptyReg exFwdOp =
      Except.error (OpError.outOfRange "grad_creators().at") :=
  ⟨registry_error_handling.1 emptyReg 0 "nope" [] [] [] (by decide),
   registry_error_handling.2.1 exChkReg 0 "ck" [] [] [] freshOperator
     [{ name := "size", type := AttrType.INT, defaultValue := none }]
     (by decide) (by decide) (by decide),
   registry_error_handling.2.2.1 exBadDesc (by decide),
   registry_error_handling.2.2.2 emptyReg exFwdOp (by decide)⟩

theorem foldl_append_one {α β : Type} (f : α → β) (l : List α) :
    ∀ acc : List β, l.foldl (fun tr x => tr ++ [f x]) acc = acc ++ l.map f := by
  induction l with
  | nil => intro acc; simp
  | cons x xs ih => intro acc; simp [ih]

/-- C8.  One `InferShape` pass and one `Run` pass each invoke every node of
the execution list exactly once, in list order — the trace is exactly the
node list mapped to the corresponding event — and neither pass changes the
sequence itself. -/
theorem plainNet_passes (net : PlainNet) (scope ctx : Nat) :
    plainNetInferShape net scope =
      (net, net.ops_.map (fun op => NetEvent.inferShapeCall op.uid)) ∧
    plainNetRun net scope ctx =
      (net, net.ops_.map (fun op => NetEvent.runCall op.uid ctx)) := by
  constructor
  · simp [plainNetInferShape, foldl_append_one]
  · simp [plainNetRun, foldl_append_one]

/-- C9.  The gradient node keeps the forward node's kind name, and
`CreateGradOp` never consults the attribute checkers: its result is
unchanged under any replacement of the checker table. -/
theorem createGradOp_type_and_no_check :
    (∀ (reg : OpRegistry) (chks : List (String × OpAttrChecker))
       (op : OperatorBase),
       createGradOp { reg with op_checkers := chks } op = createGradOp reg op) ∧
    (∀ (reg : OpRegistry) (op gop : OperatorBase),
       createGradOp reg op = Except.ok gop → gop.type_ = op.type_) := by
  constructor
  · intro reg chks op
    rfl
  · intro reg op gop h
    unfold createGradOp at h
    cases hr : regLookup reg.grad_creators op.type_ with
    | none => rw [hr] at h; exact absurd h (by simp)
    | some fresh =>
      rw [hr] at h
      simp only [Except.ok.injEq] at h
      subst h
      rfl

theorem createGradOp_type_and_no_check_witness :
    exGop.type_ = exFwdOp.type_ ∧ exGop.type_ = "mul" :=
  ⟨createGradOp_type_and_no_check.2 exGradReg exFwdOp exGop (by decide),
   by decide⟩

/-- C10.  When the creator lookup and the attribute check succeed but the
kind has no entry in the `VarIndexMaps()` table, `CreateOp` still returns
a node, and that node's `in_out_idxs_` reference is left unset. -/
theorem createOp_tolerates_missing_index (reg : OpRegistry) (c : Nat)
    (ty : String) (ins outs : List String) (attrs : AttributeMap)
    (fresh : OperatorBase) (chk : OpAttrChecker)
    (h1 : regLookup reg.creators ty = some fresh)
    (h2 : regLookup reg.op_checkers ty = some chk)
    (h3 : checkAttrMap chk attrs = true)
    (h4 : regLookup reg.var_index_maps ty = none)
    (h5 : fresh.in_out_idxs_ = none) :
    ∃ (node : OperatorBase) (c2 : Nat),
      createOp reg c ty ins outs attrs = Except.ok (node, c2) ∧
      node.in_out_idxs_ = none := by
  refine ⟨?node, (generateTempVariableName ty outs c).2, ?_, ?_⟩
  case node =>
    exact { fresh with type_ := ty, inputs_ := ins, outputs_ := (generateTempVariableName ty outs c).1, attrs_ := attrs }
  · simp [createOp, h1, h2, h3, h4]
  · simpa using h5

theorem createOp_tolerates_missing_index_witness :
    ∃ (node : OperatorBase) (c2 : Nat),
      createOp exTmpReg 0 "k" ["x"] ["y"] [] = Except.ok (node, c2) ∧
      node.in_out_idxs_ = none :=
  createOp_tolerates_missing_index exTmpReg 0 "k" ["x"] ["y"] [] freshOperator []
    (by decide) (by decide) (by decide) (by decide) (by decide)
